import Mathlib

/-!
Shallow embedding of the `neuro` feed-forward network engine.

This file embeds the numeric core of the library — activation and loss
functions (`src/lib/src/functions/activation.ts`, `loss.ts`), the
layer/neuron graph and `forward` (`src/lib/src/layer.ts`,
`src/lib/src/neuron.ts`), and `Network` with `setInputSignals`,
`forward`, `backward`, `calculateLoss`, `toJSON`, `fromJSON`
(`src/unnamed/part_007` / `part_008`) — and proves the specification's
claims about it.

Modelling conventions:
* JavaScript `number` values are embedded as `ℚ`.  The transcendental
  `Math.exp` / `Math.log` used by Sigmoid, Softmax and CrossEntropy are
  not exactly representable, so they are carried as an abstract
  parameter (`MathOps`); every structural theorem quantifies over it.
* A neuron's input connections hold a weight and a reference to the
  upstream output `Signal`.  Since the constructor fully connects each
  layer to the previous one in order, the signal references are
  positional: a neuron stores its `weights` list, and the signal values
  of layer `i` are the external input signals for `i = 0` and the
  previous layer's outputs otherwise.
* A thrown `Error` is embedded as `Except NetworkError`; the source
  checks the guard before any assignment, and correspondingly the
  embedded operations return `.error` before constructing any updated
  state.
* `preActivation : number | null` is embedded as `ℚ` initialised to `0`,
  matching the `neuron.preActivation || 0` reads in the source.
* The random weight/bias initialisation (`randomUniform`,
  `randomNormalHe`, `randomUniformXavier`) is embedded as an abstract
  source of draws (`InitSource`), indexed the way the nested
  `forEach` loops of `initWeightAndBiases` visit the neurons.
-/

namespace Neuro

/-- Ambient numeric operations standing for JavaScript's `Math.exp` and
`Math.log`. -/
structure MathOps where
  exp : ℚ → ℚ
  log : ℚ → ℚ

/-- The closed collection of activation functions
(`ActivationFunctionCollection` in `functions/activation.ts`); the
source dispatches on reference identity of these four singletons, which
is constructor equality here. -/
inductive ActivationFunction
  | ReLU
  | LeakyReLU
  | Sigmoid
  | Softmax
deriving DecidableEq, Repr, Inhabited

/-- `Math.max(...values)` over a list; the empty case is never consumed
(`Softmax` maps over the same, empty, list then). -/
def listMax : List ℚ → ℚ
  | [] => 0
  | x :: xs => xs.foldl max x

/-- The Sigmoid scalar `1 / (1 + Math.exp(-x))`. -/
def sigmoid (ops : MathOps) (x : ℚ) : ℚ :=
  1 / (1 + ops.exp (-x))

/-- `Softmax` from `functions/activation.ts`: subtract the per-vector
maximum, exponentiate, normalise by the sum. -/
def softmax (ops : MathOps) (values : List ℚ) : List ℚ :=
  let maxValue := listMax values
  let exponentials := values.map fun x => ops.exp (x - maxValue)
  let sum := exponentials.foldl (· + ·) 0
  exponentials.map fun e => e / sum

/-- `apply` of each activation function (the call `f(values)` in the
source). -/
def ActivationFunction.apply (ops : MathOps) :
    ActivationFunction → List ℚ → List ℚ
  | .ReLU, values => values.map fun x => max 0 x
  | .LeakyReLU, values => values.map fun x => if 0 < x then x else 1/100 * x
  | .Sigmoid, values => values.map fun x => sigmoid ops x
  | .Softmax, values => softmax ops values

/-- `derivative` of each activation function.  `ReLU.derivative` is
`Number(x >= 0)`; `Softmax.derivative` is the all-ones vector (the true
Jacobian is deferred to the combined loss shortcut in `backward`). -/
def ActivationFunction.derivative (ops : MathOps) :
    ActivationFunction → List ℚ → List ℚ
  | .ReLU, values => values.map fun x => if 0 ≤ x then 1 else 0
  | .LeakyReLU, values => values.map fun x => if 0 < x then 1 else 1/100
  | .Sigmoid, values => values.map fun x => sigmoid ops x * (1 - sigmoid ops x)
  | .Softmax, values => values.map fun _ => 1

/-- The closed collection of loss functions (`LossFunctionCollection`
in `functions/loss.ts`). -/
inductive LossFunction
  | MSE
  | CrossEntropy
deriving DecidableEq, Repr, Inhabited

/-- `lossFunction(predicted, expected)`.  Both source loops run over the
indices of `predicted`, reading `expected[i]`; in every (guarded) use
the lengths agree, which the `zipWith` mirrors. -/
def LossFunction.apply (ops : MathOps) :
    LossFunction → List ℚ → List ℚ → ℚ
  | .MSE, predicted, expected =>
      (List.zipWith (fun p e => 1/2 * ((p - e) * (p - e))) predicted expected).sum
  | .CrossEntropy, predicted, expected =>
      -(List.zipWith (fun p e => e * ops.log (p + 1/10^15)) predicted expected).sum

/-- `lossFunction.derivative(predicted, expected)`: for both MSE and
CrossEntropy the source returns
`predicted.map((pred, index) => pred - expected[index])`. -/
def LossFunction.derivative :
    LossFunction → List ℚ → List ℚ → List ℚ
  | .MSE, predicted, expected => List.zipWith (fun p e => p - e) predicted expected
  | .CrossEntropy, predicted, expected => List.zipWith (fun p e => p - e) predicted expected

/-- A neuron: bias, the weights of its input connections (the upstream
signals are positional, see the file header), the transient
pre-activation, and its output signal's value. -/
structure Neuron where
  weights : List ℚ
  bias : ℚ
  preActivation : ℚ
  output : ℚ
deriving DecidableEq, Repr, Inhabited

/-- A layer: ordered neurons sharing one activation function. -/
structure Layer where
  neurons : List Neuron
  activationFunction : ActivationFunction
deriving DecidableEq, Repr, Inhabited

/-- A network: ordered layers, the external input signal values, and the
selected loss function. -/
structure Network where
  layers : List Layer
  inputSignals : List ℚ
  lossFunction : LossFunction
deriving DecidableEq, Repr, Inhabited

/-- `Neuron.computePreActivation`:
`bias + Σ(input.weight * input.signal.value)` (per `neuron.ts` and
`neuron.spec.ts`), with `inputs` the values of the connected upstream
signals. -/
def Neuron.computePreActivation (n : Neuron) (inputs : List ℚ) : ℚ :=
  n.bias + (List.zipWith (fun w s => w * s) n.weights inputs).sum

/-- `Layer.forward` (`layer.ts`): compute every neuron's pre-activation,
apply the layer's activation function to the whole pre-activation
vector at once, then write the results into the neurons' output
signals. -/
def Layer.forward (ops : MathOps) (L : Layer) (inputs : List ℚ) : Layer :=
  let preActivations := L.neurons.map fun n => n.computePreActivation inputs
  let activations := L.activationFunction.apply ops preActivations
  { L with
    neurons :=
      (L.neurons.zip (preActivations.zip activations)).map fun na =>
        { na.1 with preActivation := na.2.1, output := na.2.2 } }

/-- `Layer.outputValues`: the neurons' output signal values. -/
def Layer.outputValues (L : Layer) : List ℚ :=
  L.neurons.map fun n => n.output

/-- The sequential `this.layers.forEach(layer => layer.forward())`:
the first layer reads the external input signals, each later layer
reads the previous layer's freshly written outputs. -/
def forwardLayers (ops : MathOps) : List ℚ → List Layer → List Layer
  | _, [] => []
  | inputs, L :: rest =>
      let L' := L.forward ops inputs
      L' :: forwardLayers ops L'.outputValues rest

/-- `Network.forward`. -/
def Network.forward (ops : MathOps) (net : Network) : Network :=
  { net with layers := forwardLayers ops net.inputSignals net.layers }

/-- The errors thrown by the engine (§7 of the spec): `EmptyNetwork`
("Network must contain at least one layer" / "Network has no layers")
and `ShapeMismatch` (the two "... does not match ..." messages). -/
inductive NetworkError
  | emptyNetwork
  | shapeMismatch
deriving DecidableEq, Repr

/-- `Network.setInputSignals`: the length guard throws before any
signal value is overwritten; on success every input signal value is
overwritten in order. -/
def Network.setInputSignals (net : Network) (values : List ℚ) :
    Except NetworkError Network :=
  if values.length ≠ net.inputSignals.length then .error .shapeMismatch
  else .ok { net with inputSignals := values }

/-- Per-output-neuron deltas of the output layer
(`Network.backward`, output-layer loop): for Softmax the loss gradient
is used directly, otherwise it is multiplied by the activation
derivative at the pre-activation. -/
def outputLayerDeltas (ops : MathOps) (L : Layer) (lossDerivatives : List ℚ) :
    List ℚ :=
  let preActivations := L.neurons.map fun n => n.preActivation
  let activationDerivatives := L.activationFunction.derivative ops preActivations
  List.zipWith
    (fun lossFunctionDerivative activationDerivative =>
      if L.activationFunction = .Softmax then lossFunctionDerivative
      else lossFunctionDerivative * activationDerivative)
    lossDerivatives activationDerivatives

/-- The fully computed `deltaMatrix` of `Network.backward`: one list of
deltas per layer.  The hidden-layer loop runs from the layer just below
the output layer back to layer `0`; each entry is
`(Σ_k weight_{k→j} * nextDelta_k) * activationDerivative_j`, embedded
here by recursion from the output layer backwards. -/
def deltaMatrix (ops : MathOps) : List Layer → List ℚ → List (List ℚ)
  | [], _ => []
  | [L], lossDerivatives => [outputLayerDeltas ops L lossDerivatives]
  | L :: next :: rest, lossDerivatives =>
      let ds := deltaMatrix ops (next :: rest) lossDerivatives
      let nextDeltas := ds.headD []
      let activationDerivatives :=
        L.activationFunction.derivative ops (L.neurons.map fun n => n.preActivation)
      let thisDeltas :=
        (List.range L.neurons.length).map fun j =>
          (List.zipWith (fun (nextNeuron : Neuron) nextDelta =>
              nextNeuron.weights.getD j 0 * nextDelta) next.neurons nextDeltas).sum
            * activationDerivatives.getD j 0
      thisDeltas :: ds

/-- The weight/bias update of `Network.backward` for one layer:
`weight -= learningRate * (delta * signal.value)` for every connection
and `bias -= learningRate * delta`; `inputs` are the connection signal
values (left untouched by the update). -/
def updateLayer (learningRate : ℚ) (inputs : List ℚ) (deltas : List ℚ)
    (L : Layer) : Layer :=
  { L with
    neurons :=
      List.zipWith
        (fun n delta =>
          { n with
            weights := List.zipWith
              (fun w s => w - learningRate * (delta * s)) n.weights inputs,
            bias := n.bias - learningRate * delta })
        L.neurons deltas }

/-- The update loop of `Network.backward` over all layers; the signal
values read while updating layer `i + 1` are layer `i`'s outputs, which
the update never modifies. -/
def updateLayers (learningRate : ℚ) :
    List ℚ → List Layer → List (List ℚ) → List Layer
  | _, [], _ => []
  | inputs, L :: rest, [] =>
      updateLayer learningRate inputs [] L ::
        updateLayers learningRate L.outputValues rest []
  | inputs, L :: rest, deltas :: deltasRest =>
      updateLayer learningRate inputs deltas L ::
        updateLayers learningRate L.outputValues rest deltasRest

/-- `Network.backward` (`part_008`): guard the expected-output length
against the output layer size, compute the loss gradient at the current
outputs, fill the delta matrix from the output layer backwards, and
only then update every weight and bias. -/
def Network.backward (ops : MathOps) (net : Network) (expectedOutput : List ℚ)
    (learningRate : ℚ) : Except NetworkError Network :=
  match net.layers.getLast? with
  | none => .error .emptyNetwork
  | some lastLayer =>
      if expectedOutput.length ≠ lastLayer.neurons.length then
        .error .shapeMismatch
      else
        let lossDerivatives :=
          net.lossFunction.derivative lastLayer.outputValues expectedOutput
        let dm := deltaMatrix ops net.layers lossDerivatives
        .ok { net with
              layers := updateLayers learningRate net.inputSignals net.layers dm }

/-- `Network.calculateLoss` (`part_007`): guard the expected-output
length, then return `lossFunction(predictedOutput, expectedOutput)`
without mutating anything. -/
def Network.calculateLoss (ops : MathOps) (net : Network)
    (expectedOutput : List ℚ) : Except NetworkError ℚ :=
  match net.layers.getLast? with
  | none => .error .emptyNetwork
  | some lastLayer =>
      if expectedOutput.length ≠ lastLayer.neurons.length then
        .error .shapeMismatch
      else
        .ok (net.lossFunction.apply ops lastLayer.outputValues expectedOutput)

/-- One entry of the `layerConfigs` constructor argument. -/
structure LayerConfig where
  neurons : ℕ
  activationFunction : ActivationFunction
deriving DecidableEq, Repr, Inhabited

/-- Abstract source of the random initial biases and weights drawn by
`initWeightAndBiases` (`randomUniform` / `randomNormalHe` /
`randomUniformXavier`), indexed by layer, neuron and input position. -/
structure InitSource where
  bias : ℕ → ℕ → ℚ
  weight : ℕ → ℕ → ℕ → ℚ

/-- A freshly constructed neuron: `fanIn` connections, then bias and
weights overwritten by the initialisation draws; `preActivation` and the
output signal start at `0`. -/
def mkNeuron (fanIn : ℕ) (b : ℚ) (w : ℕ → ℚ) : Neuron :=
  { weights := (List.range fanIn).map w
    bias := b
    preActivation := 0
    output := 0 }

/-- The layer stack built by the constructor: one layer per config,
fully connected to its predecessor, weights and biases filled by the
initialisation draws.  The fan-in of layer `0` is the external input
count (which equals the first layer's neuron count); of layer `i + 1`,
layer `i`'s neuron count. -/
def constructLayers (configs : List LayerConfig) (init : InitSource) :
    List Layer :=
  (List.range configs.length).map fun i =>
    { activationFunction := (configs.getD i default).activationFunction
      neurons := (List.range (configs.getD i default).neurons).map fun j =>
        mkNeuron
          (if i = 0 then (configs.headD default).neurons
           else (configs.getD (i - 1) default).neurons)
          (init.bias i j) (init.weight i j) }

/-- The `Network` constructor (`part_007` / `part_008`): reject an empty
configuration, build one layer per config, auto-select the loss function
from the last layer's activation unless one is passed explicitly, wire
the input signals (sized to the first layer's neuron count, each valued
`0`), fully connect consecutive layers, and initialise all weights and
biases from the random draws. -/
def Network.construct (configs : List LayerConfig)
    (lossFunctionArg : Option LossFunction) (init : InitSource) :
    Except NetworkError Network :=
  match configs with
  | [] => .error .emptyNetwork
  | c0 :: _ =>
      let layers := constructLayers configs init
      let lossFunction :=
        match lossFunctionArg with
        | some lf => lf
        | none =>
            if (layers.getLastD default).activationFunction = .Softmax then
              .CrossEntropy
            else .MSE
      .ok { layers := layers
            inputSignals := List.replicate c0.neurons 0
            lossFunction := lossFunction }

/-- JavaScript's `Math.round`: nearest integer, ties toward `+∞`. -/
def jsRound (x : ℚ) : ℤ := ⌊x + 1/2⌋

/-- Serialized neuron: `bias` and `weights` as scaled-and-rounded
integers. -/
structure NeuronJSON where
  bias : ℤ
  weights : List ℤ
deriving DecidableEq, Repr, Inhabited

/-- Serialized layer: neurons plus the activation-function name (the
name ↔ function correspondence is the closed enum itself). -/
structure LayerJSON where
  neurons : List NeuronJSON
  activationFunction : ActivationFunction
deriving DecidableEq, Repr, Inhabited

/-- Serialized network document. -/
structure NetworkJSON where
  layers : List LayerJSON
  lossFunction : LossFunction
deriving DecidableEq, Repr, Inhabited

/-- `Network.toJSON(fractionDigits)`: store
`Math.round(10 ** fractionDigits * value)` for every bias and weight,
plus the activation- and loss-function names. -/
def Network.toJSON (net : Network) (fractionDigits : ℕ) : NetworkJSON :=
  { layers := net.layers.map fun L =>
      { neurons := L.neurons.map fun n =>
          { bias := jsRound (10 ^ fractionDigits * n.bias)
            weights := n.weights.map fun w => jsRound (10 ^ fractionDigits * w) }
        activationFunction := L.activationFunction }
    lossFunction := net.lossFunction }

/-- `Network.fromJSON(json, fractionDigits)`: rebuild the layer configs
from the stored neuron counts and names, construct a fresh network with
the stored loss function (randomly initialised), then overwrite every
bias and connection weight with the stored integer divided by
`10 ** fractionDigits`.  The overwrite loops run over the constructed
network's structure and index into the document, exactly as the source
does; for a document produced by `toJSON` the shapes coincide. -/
def Network.fromJSON (json : NetworkJSON) (fractionDigits : ℕ)
    (init : InitSource) : Except NetworkError Network :=
  match Network.construct
      (json.layers.map fun l =>
        { neurons := l.neurons.length
          activationFunction := l.activationFunction })
      (some json.lossFunction) init with
  | .error e => .error e
  | .ok network =>
      .ok { network with
            layers := List.zipWith
              (fun (L : Layer) (jl : LayerJSON) =>
                { L with
                  neurons := List.zipWith
                    (fun (n : Neuron) (jn : NeuronJSON) =>
                      { n with
                        bias := (jn.bias : ℚ) / 10 ^ fractionDigits
                        weights := (List.range n.weights.length).map fun ii =>
                          ((jn.weights.getD ii 0 : ℤ) : ℚ) / 10 ^ fractionDigits })
                    L.neurons jl.neurons })
              network.layers json.layers }

/-- The structural invariant established by the constructor and relied
on by the claims: at least one layer, input signals sized to the first
layer's neuron count, and every neuron's connection count equal to its
layer's fan-in. -/
def Network.wellConnected (net : Network) : Prop :=
  net.layers ≠ [] ∧
  net.inputSignals.length = (net.layers.headD default).neurons.length ∧
  ∀ i, i < net.layers.length →
    ∀ j, j < (net.layers.getD i default).neurons.length →
      ((net.layers.getD i default).neurons.getD j default).weights.length =
        (if i = 0 then net.inputSignals.length
         else (net.layers.getD (i - 1) default).neurons.length)

instance (net : Network) : Decidable net.wellConnected := by
  unfold Network.wellConnected
  infer_instance

/-! Supporting lemmas -/

lemma length_apply (ops : MathOps) (af : ActivationFunction) (values : List ℚ) :
    (af.apply ops values).length = values.length := by
  cases af <;> simp [ActivationFunction.apply, softmax]

lemma length_derivative (ops : MathOps) (af : ActivationFunction)
    (values : List ℚ) :
    (af.derivative ops values).length = values.length := by
  cases af <;> simp [ActivationFunction.derivative]

lemma length_lossDerivative (lf : LossFunction) (predicted expected : List ℚ) :
    (lf.derivative predicted expected).length =
      min predicted.length expected.length := by
  cases lf <;> simp [LossFunction.derivative]

lemma length_outputValues (L : Layer) :
    L.outputValues.length = L.neurons.length := by
  simp [Layer.outputValues]

lemma getLast?_eq_getLastD {α : Type} (l : List α) (h : l ≠ []) (d : α) :
    l.getLast? = some (l.getLastD d) := by
  simp [List.getLastD_eq_getLast?, List.getLast?_eq_getLast l h]

lemma getLastD_ne {α : Type} (l : List α) (h : l ≠ []) (d1 d2 : α) :
    l.getLastD d1 = l.getLastD d2 := by
  simp [List.getLastD_eq_getLast?, List.getLast?_eq_getLast l h]

lemma getD_range_map {α : Type} (f : ℕ → α) (n i : ℕ) (h : i < n) (d : α) :
    ((List.range n).map f).getD i d = f i := by
  have hlen : i < ((List.range n).map f).length := by simpa using h
  rw [List.getD_eq_getElem _ _ hlen, List.getElem_map, List.getElem_range]

lemma deltaMatrix_length (ops : MathOps) (ls : List Layer) (lds : List ℚ) :
    (deltaMatrix ops ls lds).length = ls.length := by
  induction ls with
  | nil => simp [deltaMatrix]
  | cons L rest ih =>
      cases rest with
      | nil => simp [deltaMatrix]
      | cons next rest2 => simpa [deltaMatrix] using ih

lemma deltaMatrix_getLastD (ops : MathOps) (ls : List Layer) (lds : List ℚ)
    (h : ls ≠ []) :
    (deltaMatrix ops ls lds).getLastD [] =
      outputLayerDeltas ops (ls.getLastD default) lds := by
  induction ls with
  | nil => exact absurd rfl h
  | cons L rest ih =>
      cases rest with
      | nil => simp [deltaMatrix]
      | cons next rest2 =>
          have hne : (next :: rest2 : List Layer) ≠ [] := by simp
          have hd : (deltaMatrix ops (next :: rest2) lds) ≠ [] := by
            intro he
            have := deltaMatrix_length ops (next :: rest2) lds
            rw [he] at this
            simp at this
          rw [show deltaMatrix ops (L :: next :: rest2) lds =
              _ :: deltaMatrix ops (next :: rest2) lds from rfl]
          rw [List.getLastD_cons]
          rw [getLastD_ne _ hd _ ([] : List ℚ), ih hne]
          rw [show (L :: next :: rest2).getLastD default =
              (next :: rest2).getLastD L from List.getLastD_cons _ _ _]
          rw [getLastD_ne (next :: rest2) hne L default]

lemma getD_zipWith {α β γ : Type} (f : α → β → γ) (as : List α) (bs : List β)
    (i : ℕ) (h1 : i < as.length) (h2 : i < bs.length) (da : α) (db : β) (dc : γ) :
    (List.zipWith f as bs).getD i dc = f (as.getD i da) (bs.getD i db) := by
  have hlen : i < (List.zipWith f as bs).length := by
    rw [List.length_zipWith]
    exact lt_min h1 h2
  rw [List.getD_eq_getElem _ _ hlen, List.getD_eq_getElem _ _ h1,
    List.getD_eq_getElem _ _ h2, List.getElem_zipWith]

lemma getD_zip {α β : Type} (as : List α) (bs : List β) (i : ℕ)
    (h1 : i < as.length) (h2 : i < bs.length) (da : α) (db : β) :
    (as.zip bs).getD i (da, db) = (as.getD i da, bs.getD i db) := by
  have hlen : i < (as.zip bs).length := by
    rw [List.length_zip]
    exact lt_min h1 h2
  rw [List.getD_eq_getElem _ _ hlen, List.getD_eq_getElem _ _ h1,
    List.getD_eq_getElem _ _ h2, List.getElem_zip]

lemma getD_map {α β : Type} (f : α → β) (l : List α) (i : ℕ)
    (h : i < l.length) (da : α) (db : β) :
    (l.map f).getD i db = f (l.getD i da) := by
  have hlen : i < (l.map f).length := by simpa using h
  rw [List.getD_eq_getElem _ _ hlen, List.getD_eq_getElem _ _ h, List.getElem_map]

lemma deltaMatrix_getD_hidden (ops : MathOps) (ls : List Layer) (lds : List ℚ) :
    ∀ i, i + 1 < ls.length →
      (deltaMatrix ops ls lds).getD i [] =
        (List.range (ls.getD i default).neurons.length).map fun j =>
          (List.zipWith
            (fun (nextNeuron : Neuron) nextDelta =>
              nextNeuron.weights.getD j 0 * nextDelta)
            (ls.getD (i + 1) default).neurons
            ((deltaMatrix ops ls lds).getD (i + 1) [])).sum
          * ((ls.getD i default).activationFunction.derivative ops
              ((ls.getD i default).neurons.map fun n => n.preActivation)).getD j 0 := by
  induction ls with
  | nil => intro i hi; simp at hi
  | cons L rest ih =>
      cases rest with
      | nil => intro i hi; simp at hi
      | cons next rest2 =>
          intro i hi
          cases i with
          | zero =>
              have hd : deltaMatrix ops (next :: rest2) lds ≠ [] := by
                intro he
                have hl := deltaMatrix_length ops (next :: rest2) lds
                rw [he] at hl
                simp at hl
              rw [show deltaMatrix ops (L :: next :: rest2) lds =
                  ((List.range L.neurons.length).map fun j =>
                    (List.zipWith
                      (fun (nextNeuron : Neuron) nextDelta =>
                        nextNeuron.weights.getD j 0 * nextDelta)
                      next.neurons
                      ((deltaMatrix ops (next :: rest2) lds).headD [])).sum
                    * ((L.activationFunction.derivative ops
                        (L.neurons.map fun n => n.preActivation)).getD j 0)) ::
                  deltaMatrix ops (next :: rest2) lds from rfl]
              rw [List.getD_cons_zero, List.getD_cons_succ, List.getD_cons_zero]
              cases hdm : deltaMatrix ops (next :: rest2) lds with
              | nil => exact absurd hdm hd
              | cons d0 drest => simp [hdm]
          | succ k =>
              have hk : k + 1 < (next :: rest2 : List Layer).length := by
                simpa using hi
              have := ih k hk
              rw [show deltaMatrix ops (L :: next :: rest2) lds =
                  _ :: deltaMatrix ops (next :: rest2) lds from rfl]
              rw [List.getD_cons_succ, List.getD_cons_succ, List.getD_cons_succ,
                List.getD_cons_succ]
              exact this

lemma deltaMatrix_entry_length (ops : MathOps) (ls : List Layer) (lds : List ℚ)
    (hlds : lds.length = (ls.getLastD default).neurons.length) :
    ∀ i, i < ls.length →
      ((deltaMatrix ops ls lds).getD i []).length =
        (ls.getD i default).neurons.length := by
  induction ls with
  | nil => intro i hi; simp at hi
  | cons L rest ih =>
      cases rest with
      | nil =>
          intro i hi
          have hi0 : i = 0 := by simp at hi; omega
          subst hi0
          rw [show deltaMatrix ops [L] lds =
              [outputLayerDeltas ops L lds] from rfl]
          rw [List.getD_cons_zero, List.getD_cons_zero]
          unfold outputLayerDeltas
          rw [List.length_zipWith, length_derivative]
          simp only [List.length_map]
          rw [List.getLastD_cons] at hlds
          simp only [List.getLastD] at hlds
          omega
      | cons next rest2 =>
          intro i hi
          have hlds2 : lds.length =
              ((next :: rest2 : List Layer).getLastD default).neurons.length := by
            rw [List.getLastD_cons] at hlds
            rw [getLastD_ne (next :: rest2) (by simp) default L]
            exact hlds
          cases i with
          | zero =>
              rw [show deltaMatrix ops (L :: next :: rest2) lds =
                  _ :: deltaMatrix ops (next :: rest2) lds from rfl]
              rw [List.getD_cons_zero, List.getD_cons_zero]
              simp
          | succ k =>
              rw [show deltaMatrix ops (L :: next :: rest2) lds =
                  _ :: deltaMatrix ops (next :: rest2) lds from rfl]
              rw [List.getD_cons_succ, List.getD_cons_succ]
              exact ih hlds2 k (by simpa using hi)

lemma updateLayers_length (lr : ℚ) :
    ∀ (inputs : List ℚ) (ls : List Layer) (dss : List (List ℚ)),
      (updateLayers lr inputs ls dss).length = ls.length := by
  intro inputs ls
  induction ls generalizing inputs with
  | nil => intro dss; cases dss <;> simp [updateLayers]
  | cons L rest ih =>
      intro dss
      cases dss with
      | nil => simpa [updateLayers] using ih L.outputValues []
      | cons ds dss2 => simpa [updateLayers] using ih L.outputValues dss2

lemma updateLayers_getD (lr : ℚ) :
    ∀ (inputs : List ℚ) (ls : List Layer) (dss : List (List ℚ)) (i : ℕ),
      i < ls.length →
      (updateLayers lr inputs ls dss).getD i default =
        updateLayer lr
          (if i = 0 then inputs else (ls.getD (i - 1) default).outputValues)
          (dss.getD i []) (ls.getD i default) := by
  intro inputs ls
  induction ls generalizing inputs with
  | nil => intro dss i hi; simp at hi
  | cons L rest ih =>
      intro dss i hi
      cases dss with
      | nil =>
          cases i with
          | zero => simp [updateLayers]
          | succ k =>
              rw [show updateLayers lr inputs (L :: rest) [] =
                  updateLayer lr inputs [] L ::
                    updateLayers lr L.outputValues rest [] from rfl]
              rw [List.getD_cons_succ, List.getD_cons_succ]
              rw [ih L.outputValues [] k (by simpa using hi)]
              cases k with
              | zero => simp
              | succ m => simp
      | cons ds dss2 =>
          cases i with
          | zero => simp [updateLayers]
          | succ k =>
              rw [show updateLayers lr inputs (L :: rest) (ds :: dss2) =
                  updateLayer lr inputs ds L ::
                    updateLayers lr L.outputValues rest dss2 from rfl]
              rw [List.getD_cons_succ, List.getD_cons_succ, List.getD_cons_succ]
              rw [ih L.outputValues dss2 k (by simpa using hi)]
              cases k with
              | zero => simp
              | succ m => simp

lemma updateLayer_neurons_getD (lr : ℚ) (inputs deltas : List ℚ) (L : Layer)
    (j : ℕ) (hj : j < L.neurons.length) (hd : j < deltas.length) :
    (updateLayer lr inputs deltas L).neurons.getD j default =
      { (L.neurons.getD j default) with
        weights := List.zipWith
          (fun w s => w - lr * ((deltas.getD j 0) * s))
          ((L.neurons.getD j default).weights) inputs
        bias := (L.neurons.getD j default).bias - lr * (deltas.getD j 0) } := by
  unfold updateLayer
  rw [getD_zipWith _ _ _ j hj hd default 0 default]

lemma backward_eq_ok (ops : MathOps) (net : Network) (expected : List ℚ)
    (lr : ℚ) (h : net.layers ≠ [])
    (hlen : expected.length = (net.layers.getLastD default).neurons.length) :
    net.backward ops expected lr =
      .ok { net with
            layers := updateLayers lr net.inputSignals net.layers
              (deltaMatrix ops net.layers
                (net.lossFunction.derivative
                  (net.layers.getLastD default).outputValues expected)) } := by
  unfold Network.backward
  rw [getLast?_eq_getLastD net.layers h default]
  show (if expected.length ≠ (net.layers.getLastD default).neurons.length then
      Except.error NetworkError.shapeMismatch
    else _) = _
  rw [if_neg (by omega)]

lemma forward_activationFunction (ops : MathOps) (L : Layer) (inputs : List ℚ) :
    (L.forward ops inputs).activationFunction = L.activationFunction := rfl

lemma forward_neurons_length (ops : MathOps) (L : Layer) (inputs : List ℚ) :
    (L.forward ops inputs).neurons.length = L.neurons.length := by
  unfold Layer.forward
  simp [List.length_zip, length_apply]

lemma forward_neurons_getD (ops : MathOps) (L : Layer) (inputs : List ℚ)
    (j : ℕ) (hj : j < L.neurons.length) :
    (L.forward ops inputs).neurons.getD j default =
      { L.neurons.getD j default with
        preActivation := (L.neurons.getD j default).computePreActivation inputs
        output := (L.activationFunction.apply ops
          (L.neurons.map fun n => n.computePreActivation inputs)).getD j 0 } := by
  unfold Layer.forward
  have hp : j < (L.neurons.map fun n => n.computePreActivation inputs).length := by
    simpa using hj
  have ha : j < (L.activationFunction.apply ops
      (L.neurons.map fun n => n.computePreActivation inputs)).length := by
    rw [length_apply]
    simpa using hj
  have hpa : j < ((L.neurons.map fun n => n.computePreActivation inputs).zip
      (L.activationFunction.apply ops
        (L.neurons.map fun n => n.computePreActivation inputs))).length := by
    rw [List.length_zip]
    exact lt_min hp ha
  have hz : j < (L.neurons.zip
      ((L.neurons.map fun n => n.computePreActivation inputs).zip
        (L.activationFunction.apply ops
          (L.neurons.map fun n => n.computePreActivation inputs)))).length := by
    rw [List.length_zip]
    exact lt_min hj hpa
  rw [getD_map _ _ j hz (default, ((0 : ℚ), (0 : ℚ)))]
  rw [getD_zip _ _ j hj hpa default ((0 : ℚ), (0 : ℚ))]
  rw [getD_zip _ _ j hp ha (0 : ℚ) (0 : ℚ)]
  rw [getD_map _ _ j hj default (0 : ℚ)]

lemma forward_preActivations (ops : MathOps) (L : Layer) (inputs : List ℚ) :
    ((L.forward ops inputs).neurons.map fun n => n.preActivation) =
      L.neurons.map fun n => n.computePreActivation inputs := by
  apply List.ext_getElem
  · simp [forward_neurons_length]
  · intro n h1 h2
    rw [List.getElem_map, List.getElem_map]
    have hn : n < L.neurons.length := by simpa using h2
    have hfn : n < (L.forward ops inputs).neurons.length := by
      rw [forward_neurons_length]
      exact hn
    rw [← List.getD_eq_getElem _ default hfn, ← List.getD_eq_getElem _ default hn]
    rw [forward_neurons_getD ops L inputs n hn]

lemma forward_outputValues (ops : MathOps) (L : Layer) (inputs : List ℚ) :
    (L.forward ops inputs).outputValues =
      L.activationFunction.apply ops
        ((L.forward ops inputs).neurons.map fun n => n.preActivation) := by
  rw [forward_preActivations]
  unfold Layer.outputValues
  apply List.ext_getElem
  · rw [List.length_map, forward_neurons_length, length_apply, List.length_map]
  · intro n h1 h2
    rw [List.getElem_map]
    have hn : n < L.neurons.length := by
      have := h1
      rwa [List.length_map, forward_neurons_length] at this
    have hfn : n < (L.forward ops inputs).neurons.length := by
      rw [forward_neurons_length]
      exact hn
    have hap : n < (L.activationFunction.apply ops
        (L.neurons.map fun nn => nn.computePreActivation inputs)).length := by
      rw [length_apply]
      simpa using hn
    rw [← List.getD_eq_getElem _ default hfn, ← List.getD_eq_getElem _ (0 : ℚ) hap]
    rw [forward_neurons_getD ops L inputs n hn]

lemma forwardLayers_length (ops : MathOps) :
    ∀ (inputs : List ℚ) (ls : List Layer),
      (forwardLayers ops inputs ls).length = ls.length := by
  intro inputs ls
  induction ls generalizing inputs with
  | nil => simp [forwardLayers]
  | cons L rest ih => simpa [forwardLayers] using ih (L.forward ops inputs).outputValues

lemma forwardLayers_getD (ops : MathOps) :
    ∀ (inputs : List ℚ) (ls : List Layer) (i : ℕ), i < ls.length →
      (forwardLayers ops inputs ls).getD i default =
        (ls.getD i default).forward ops
          (if i = 0 then inputs
           else ((forwardLayers ops inputs ls).getD (i - 1) default).outputValues) := by
  intro inputs ls
  induction ls generalizing inputs with
  | nil => intro i hi; simp at hi
  | cons L rest ih =>
      intro i hi
      cases i with
      | zero => simp [forwardLayers]
      | succ k =>
          rw [show forwardLayers ops inputs (L :: rest) =
              L.forward ops inputs ::
                forwardLayers ops (L.forward ops inputs).outputValues rest from rfl]
          rw [List.getD_cons_succ, List.getD_cons_succ]
          rw [ih (L.forward ops inputs).outputValues k (by simpa using hi)]
          cases k with
          | zero => simp
          | succ m => simp

lemma foldl_add_eq (l : List ℚ) : ∀ a : ℚ, l.foldl (· + ·) a = a + l.sum := by
  induction l with
  | nil => intro a; simp
  | cons x xs ih =>
      intro a
      rw [List.foldl_cons, ih (a + x), List.sum_cons]
      ring

lemma sum_map_div_eq (l : List ℚ) (s : ℚ) :
    (l.map fun e => e / s).sum = l.sum / s := by
  induction l with
  | nil => simp
  | cons x xs ih =>
      rw [List.map_cons, List.sum_cons, List.sum_cons, ih, add_div]

lemma getD_indep {α : Type} (l : List α) (i : ℕ) (h : i < l.length)
    (d1 d2 : α) : l.getD i d1 = l.getD i d2 := by
  rw [List.getD_eq_getElem _ _ h, List.getD_eq_getElem _ _ h]

lemma getLastD_eq_getD {α : Type} :
    ∀ (l : List α) (d : α), l ≠ [] → l.getLastD d = l.getD (l.length - 1) d := by
  intro l
  induction l with
  | nil => intro d hd; exact absurd rfl hd
  | cons a t ih =>
      intro d hd
      rw [List.getLastD_cons]
      cases ht : t with
      | nil => simp [ht]
      | cons b t2 =>
          rw [← ht]
          have htne : t ≠ [] := by rw [ht]; simp
          rw [ih a htne]
          have hlen : (a :: t).length - 1 = (t.length - 1) + 1 := by
            rw [ht]
            simp
          rw [hlen, List.getD_cons_succ]
          exact getD_indep t _ (by rw [ht]; simp) a d

lemma headD_map_ne {α β : Type} (f : α → β) (l : List α) (h : l ≠ [])
    (d1 : β) (d2 : α) : (l.map f).headD d1 = f (l.headD d2) := by
  cases l with
  | nil => exact absurd rfl h
  | cons a t => rfl

lemma constructLayers_length (configs : List LayerConfig) (init : InitSource) :
    (constructLayers configs init).length = configs.length := by
  simp [constructLayers]

lemma constructLayers_getD (configs : List LayerConfig) (init : InitSource)
    (i : ℕ) (hi : i < configs.length) :
    (constructLayers configs init).getD i default =
      { activationFunction := (configs.getD i default).activationFunction
        neurons := (List.range (configs.getD i default).neurons).map fun j =>
          mkNeuron
            (if i = 0 then (configs.headD default).neurons
             else (configs.getD (i - 1) default).neurons)
            (init.bias i j) (init.weight i j) } := by
  unfold constructLayers
  rw [getD_range_map _ _ i hi]

lemma construct_eq_ok (configs : List LayerConfig)
    (lossFunctionArg : Option LossFunction) (init : InitSource)
    (h : configs ≠ []) :
    Network.construct configs lossFunctionArg init =
      .ok { layers := constructLayers configs init
            inputSignals := List.replicate (configs.headD default).neurons 0
            lossFunction :=
              match lossFunctionArg with
              | some lf => lf
              | none =>
                  if ((constructLayers configs init).getLastD
                      default).activationFunction = .Softmax then
                    .CrossEntropy
                  else .MSE } := by
  cases configs with
  | nil => exact absurd rfl h
  | cons c0 rest => rfl

/-! Concrete objects used by the witnesses -/

/-- Concrete stand-in for the ambient `Math` operations, used to
instantiate witnesses whose computations never depend on `exp`/`log`
values (or only on their positivity). -/
def oneOps : MathOps := ⟨fun _ => 1, fun _ => 1⟩

/-- Concrete stand-in initialisation draws. -/
def zeroInit : InitSource := ⟨fun _ _ => 0, fun _ _ _ => 0⟩

/-- A one-layer ReLU network in a post-forward state
(input `2`, weight `1/2`, bias `1/4`, pre-activation and output `5/4`). -/
def wNet1 : Network :=
  { layers := [{ neurons := [{ weights := [1/2], bias := 1/4,
                               preActivation := 5/4, output := 5/4 }]
                 activationFunction := .ReLU }]
    inputSignals := [2]
    lossFunction := .MSE }

/-- A two-layer network (LeakyReLU hidden layer, ReLU output layer) in a
post-forward state. -/
def wNet2 : Network :=
  { layers := [{ neurons := [{ weights := [1], bias := 0,
                               preActivation := 1/2, output := 3/4 }]
                 activationFunction := .LeakyReLU },
               { neurons := [{ weights := [2], bias := 0,
                               preActivation := 3/2, output := 3/2 }]
                 activationFunction := .ReLU }]
    inputSignals := [1/2]
    lossFunction := .MSE }

/-- A two-layer network whose hidden layer uses Softmax. -/
def wNet3 : Network :=
  { layers := [{ neurons := [{ weights := [1], bias := 0,
                               preActivation := 1/2, output := 1 }]
                 activationFunction := .Softmax },
               { neurons := [{ weights := [2], bias := 0,
                               preActivation := 2, output := 2 }]
                 activationFunction := .ReLU }]
    inputSignals := [1/2]
    lossFunction := .MSE }

/-! Claims -/

/-- C1: for every network whose output layer exists and every
expected-output vector of matching length, `backward` computes the
output-layer delta of each output neuron as the loss function's
derivative at that index when the output layer's activation is Softmax,
and as that loss derivative multiplied by the output layer's
activation-function derivative at the neuron's pre-activation
otherwise.  The delta matrix and the loss-derivative argument below are
exactly the ones `Network.backward` builds before updating. -/
theorem backward_output_layer_delta (ops : MathOps) (net : Network)
    (expected : List ℚ) (h : net.layers ≠ [])
    (hlen : expected.length = (net.layers.getLastD default).neurons.length)
    (j : ℕ) (hj : j < (net.layers.getLastD default).neurons.length) :
    ((deltaMatrix ops net.layers
        (net.lossFunction.derivative
          (net.layers.getLastD default).outputValues expected)).getLastD []).getD j 0 =
      if (net.layers.getLastD default).activationFunction = .Softmax then
        (net.lossFunction.derivative
          (net.layers.getLastD default).outputValues expected).getD j 0
      else
        (net.lossFunction.derivative
          (net.layers.getLastD default).outputValues expected).getD j 0 *
          ((net.layers.getLastD default).activationFunction.derivative ops
            ((net.layers.getLastD default).neurons.map fun n =>
              n.preActivation)).getD j 0 := by
  rw [deltaMatrix_getLastD ops net.layers _ h]
  unfold outputLayerDeltas
  have h1 : j < (net.lossFunction.derivative
      (net.layers.getLastD default).outputValues expected).length := by
    rw [length_lossDerivative, length_outputValues]
    omega
  have h2 : j < ((net.layers.getLastD default).activationFunction.derivative ops
      ((net.layers.getLastD default).neurons.map fun n =>
        n.preActivation)).length := by
    rw [length_derivative]
    simpa using hj
  rw [getD_zipWith _ _ _ j h1 h2 0 0 0]

/-- Closed witness for `backward_output_layer_delta` on `wNet1` with
expected output `[1]`. -/
theorem backward_output_layer_delta_witness :
    wNet1.layers ≠ [] ∧
    (1 : ℕ) = (wNet1.layers.getLastD default).neurons.length ∧
    ((deltaMatrix oneOps wNet1.layers
        (wNet1.lossFunction.derivative
          (wNet1.layers.getLastD default).outputValues [1])).getLastD []).getD 0 0 =
      if (wNet1.layers.getLastD default).activationFunction = .Softmax then
        (wNet1.lossFunction.derivative
          (wNet1.layers.getLastD default).outputValues [1]).getD 0 0
      else
        (wNet1.lossFunction.derivative
          (wNet1.layers.getLastD default).outputValues [1]).getD 0 0 *
          ((wNet1.layers.getLastD default).activationFunction.derivative oneOps
            ((wNet1.layers.getLastD default).neurons.map fun n =>
              n.preActivation)).getD 0 0 :=
  ⟨by decide, by decide,
    backward_output_layer_delta oneOps wNet1 [1] (by decide)
      (by decide) 0 (by decide)⟩

/-- C2: for every network with at least two layers and a matching
expected-output vector, `backward` computes the delta of neuron `j` in
each non-output layer `i` as the layer's activation derivative at
neuron `j`'s pre-activation times the sum over all neurons of layer
`i + 1` of (that neuron's `j`-th connection weight times its delta);
the delta matrix is filled from the output layer back to layer `0`, so
layer `i`'s entry is defined in terms of layer `i + 1`'s.  The second
conjunct records that the downstream delta list ranges over all of
layer `i + 1`'s neurons. -/
theorem backward_hidden_layer_delta (ops : MathOps) (net : Network)
    (expected : List ℚ)
    (hlen : expected.length = (net.layers.getLastD default).neurons.length)
    (i : ℕ) (hi : i + 1 < net.layers.length)
    (j : ℕ) (hj : j < (net.layers.getD i default).neurons.length) :
    (((deltaMatrix ops net.layers
        (net.lossFunction.derivative
          (net.layers.getLastD default).outputValues expected)).getD i []).getD j 0 =
      ((net.layers.getD i default).activationFunction.derivative ops
          ((net.layers.getD i default).neurons.map fun n =>
            n.preActivation)).getD j 0 *
        (List.zipWith
          (fun (nextNeuron : Neuron) nextDelta =>
            nextNeuron.weights.getD j 0 * nextDelta)
          (net.layers.getD (i + 1) default).neurons
          ((deltaMatrix ops net.layers
            (net.lossFunction.derivative
              (net.layers.getLastD default).outputValues expected)).getD (i + 1) [])).sum) ∧
    ((deltaMatrix ops net.layers
        (net.lossFunction.derivative
          (net.layers.getLastD default).outputValues expected)).getD (i + 1) []).length =
      (net.layers.getD (i + 1) default).neurons.length := by
  have hlds : (net.lossFunction.derivative
      (net.layers.getLastD default).outputValues expected).length =
      (net.layers.getLastD default).neurons.length := by
    rw [length_lossDerivative, length_outputValues]
    omega
  constructor
  · rw [deltaMatrix_getD_hidden ops net.layers _ i hi]
    rw [getD_range_map _ _ j hj ((0 : ℚ))]
    exact mul_comm _ _
  · exact deltaMatrix_entry_length ops net.layers _ hlds (i + 1) hi

/-- Closed witness for `backward_hidden_layer_delta` on `wNet2` with
expected output `[1]`, hidden layer `0`, neuron `0`. -/
theorem backward_hidden_layer_delta_witness :
    (1 : ℕ) = (wNet2.layers.getLastD default).neurons.length ∧
    0 + 1 < wNet2.layers.length ∧
    ((((deltaMatrix oneOps wNet2.layers
        (wNet2.lossFunction.derivative
          (wNet2.layers.getLastD default).outputValues [1])).getD 0 []).getD 0 0 =
      ((wNet2.layers.getD 0 default).activationFunction.derivative oneOps
          ((wNet2.layers.getD 0 default).neurons.map fun n =>
            n.preActivation)).getD 0 0 *
        (List.zipWith
          (fun (nextNeuron : Neuron) nextDelta =>
            nextNeuron.weights.getD 0 0 * nextDelta)
          (wNet2.layers.getD (0 + 1) default).neurons
          ((deltaMatrix oneOps wNet2.layers
            (wNet2.lossFunction.derivative
              (wNet2.layers.getLastD default).outputValues [1])).getD (0 + 1) [])).sum) ∧
    ((deltaMatrix oneOps wNet2.layers
        (wNet2.lossFunction.derivative
          (wNet2.layers.getLastD default).outputValues [1])).getD (0 + 1) []).length =
      (wNet2.layers.getD (0 + 1) default).neurons.length) :=
  ⟨by decide, by decide,
    backward_hidden_layer_delta oneOps wNet2 [1] (by decide)
      0 (by decide) 0 (by decide)⟩

/-- C9 (implicit): Softmax's `derivative` is the all-ones vector for
every input, so when a Softmax layer sits in a hidden position
`backward` still multiplies by it and that layer's deltas reduce to the
bare weighted sums of the downstream deltas; the Softmax special case
(`delta = lossGradient` with no derivative factor at all) lives only in
the output-layer computation. -/
theorem hidden_softmax_delta (ops : MathOps) (values : List ℚ)
    (net : Network) (expected : List ℚ)
    (i : ℕ) (hi : i + 1 < net.layers.length)
    (hsm : (net.layers.getD i default).activationFunction = .Softmax)
    (j : ℕ) (hj : j < (net.layers.getD i default).neurons.length) :
    ActivationFunction.derivative ops .Softmax values = values.map (fun _ => 1) ∧
    (((deltaMatrix ops net.layers
        (net.lossFunction.derivative
          (net.layers.getLastD default).outputValues expected)).getD i []).getD j 0 =
      (List.zipWith
        (fun (nextNeuron : Neuron) nextDelta =>
          nextNeuron.weights.getD j 0 * nextDelta)
        (net.layers.getD (i + 1) default).neurons
        ((deltaMatrix ops net.layers
          (net.lossFunction.derivative
            (net.layers.getLastD default).outputValues expected)).getD (i + 1) [])).sum) := by
  refine ⟨rfl, ?_⟩
  rw [deltaMatrix_getD_hidden ops net.layers _ i hi]
  rw [getD_range_map _ _ j hj ((0 : ℚ))]
  rw [hsm]
  have hone : ((ActivationFunction.Softmax.derivative ops
      ((net.layers.getD i default).neurons.map fun n =>
        n.preActivation))).getD j 0 = 1 := by
    show (((net.layers.getD i default).neurons.map fun n =>
      n.preActivation).map fun _ => (1 : ℚ)).getD j 0 = 1
    rw [getD_map _ _ j (by simpa using hj) 0]
  rw [hone, mul_one]

/-- Closed witness for `hidden_softmax_delta` on `wNet3` (hidden Softmax
layer) with expected output `[1]`. -/
theorem hidden_softmax_delta_witness :
    0 + 1 < wNet3.layers.length ∧
    (wNet3.layers.getD 0 default).activationFunction = .Softmax ∧
    (ActivationFunction.derivative oneOps .Softmax [7, 9] =
      [7, 9].map (fun _ => 1) ∧
    (((deltaMatrix oneOps wNet3.layers
        (wNet3.lossFunction.derivative
          (wNet3.layers.getLastD default).outputValues [1])).getD 0 []).getD 0 0 =
      (List.zipWith
        (fun (nextNeuron : Neuron) nextDelta =>
          nextNeuron.weights.getD 0 0 * nextDelta)
        (wNet3.layers.getD (0 + 1) default).neurons
        ((deltaMatrix oneOps wNet3.layers
          (wNet3.lossFunction.derivative
            (wNet3.layers.getLastD default).outputValues [1])).getD (0 + 1) [])).sum)) :=
  ⟨by decide, by decide,
    hidden_softmax_delta oneOps [7, 9] wNet3 [1]
      0 (by decide) (by decide) 0 (by decide)⟩

/-- C3: for every network and matching expected-output vector,
`backward` succeeds and replaces each connection weight by
`weight - learningRate * delta * signal` and each bias by
`bias - learningRate * delta`, where the whole delta matrix is the one
computed from the *pre-update* network (`deltaMatrix` applied to
`net.layers`, i.e. the pre-update weights) and the signal values are
the ones left by the last forward pass (`net.inputSignals` for layer
`0`, the previous layer's untouched outputs otherwise) — no weight or
bias enters its own delta computation.  The record update below keeps
`preActivation` and `output` unchanged, so the updates also leave all
signal values intact. -/
theorem backward_updates_after_deltas (ops : MathOps) (net : Network)
    (expected : List ℚ) (lr : ℚ) (h : net.layers ≠ [])
    (hlen : expected.length = (net.layers.getLastD default).neurons.length) :
    ∃ net', net.backward ops expected lr = .ok net' ∧
      net'.inputSignals = net.inputSignals ∧
      net'.lossFunction = net.lossFunction ∧
      net'.layers.length = net.layers.length ∧
      ∀ i, i < net.layers.length →
        ((net'.layers.getD i default).activationFunction =
            (net.layers.getD i default).activationFunction ∧
          ∀ j, j < (net.layers.getD i default).neurons.length →
            (net'.layers.getD i default).neurons.getD j default =
              { (net.layers.getD i default).neurons.getD j default with
                weights := List.zipWith
                  (fun w s => w - lr *
                    ((((deltaMatrix ops net.layers
                        (net.lossFunction.derivative
                          (net.layers.getLastD default).outputValues
                          expected)).getD i []).getD j 0) * s))
                  ((net.layers.getD i default).neurons.getD j default).weights
                  (if i = 0 then net.inputSignals
                   else (net.layers.getD (i - 1) default).outputValues)
                bias :=
                  ((net.layers.getD i default).neurons.getD j default).bias -
                    lr * (((deltaMatrix ops net.layers
                      (net.lossFunction.derivative
                        (net.layers.getLastD default).outputValues
                        expected)).getD i []).getD j 0) }) := by
  refine ⟨_, backward_eq_ok ops net expected lr h hlen, rfl, rfl, ?_, ?_⟩
  · exact updateLayers_length lr net.inputSignals net.layers _
  · intro i hi
    rw [show ({ net with
        layers := updateLayers lr net.inputSignals net.layers
          (deltaMatrix ops net.layers
            (net.lossFunction.derivative
              (net.layers.getLastD default).outputValues expected)) } :
        Network).layers =
      updateLayers lr net.inputSignals net.layers
        (deltaMatrix ops net.layers
          (net.lossFunction.derivative
            (net.layers.getLastD default).outputValues expected)) from rfl]
    rw [updateLayers_getD lr net.inputSignals net.layers _ i hi]
    constructor
    · rfl
    · intro j hj
      have hlds : (net.lossFunction.derivative
          (net.layers.getLastD default).outputValues expected).length =
          (net.layers.getLastD default).neurons.length := by
        rw [length_lossDerivative, length_outputValues]
        omega
      have hd : j < ((deltaMatrix ops net.layers
          (net.lossFunction.derivative
            (net.layers.getLastD default).outputValues expected)).getD i []).length := by
        rw [deltaMatrix_entry_length ops net.layers _ hlds i hi]
        exact hj
      rw [updateLayer_neurons_getD lr _ _ _ j hj hd]

/-- Closed witness for `backward_updates_after_deltas` on `wNet1` with
expected output `[1]` and learning rate `1/10`. -/
theorem backward_updates_after_deltas_witness :
    wNet1.layers ≠ [] ∧
    (1 : ℕ) = (wNet1.layers.getLastD default).neurons.length ∧
    (∃ net', wNet1.backward oneOps [1] (1/10) = .ok net' ∧
      net'.inputSignals = wNet1.inputSignals ∧
      net'.lossFunction = wNet1.lossFunction ∧
      net'.layers.length = wNet1.layers.length ∧
      ∀ i, i < wNet1.layers.length →
        ((net'.layers.getD i default).activationFunction =
            (wNet1.layers.getD i default).activationFunction ∧
          ∀ j, j < (wNet1.layers.getD i default).neurons.length →
            (net'.layers.getD i default).neurons.getD j default =
              { (wNet1.layers.getD i default).neurons.getD j default with
                weights := List.zipWith
                  (fun w s => w - (1/10) *
                    ((((deltaMatrix oneOps wNet1.layers
                        (wNet1.lossFunction.derivative
                          (wNet1.layers.getLastD default).outputValues
                          [1])).getD i []).getD j 0) * s))
                  ((wNet1.layers.getD i default).neurons.getD j default).weights
                  (if i = 0 then wNet1.inputSignals
                   else (wNet1.layers.getD (i - 1) default).outputValues)
                bias :=
                  ((wNet1.layers.getD i default).neurons.getD j default).bias -
                    (1/10) * (((deltaMatrix oneOps wNet1.layers
                      (wNet1.lossFunction.derivative
                        (wNet1.layers.getLastD default).outputValues
                        [1])).getD i []).getD j 0) })) :=
  ⟨by decide, by decide,
    backward_updates_after_deltas oneOps wNet1 [1] (1/10) (by decide) (by decide)⟩

/-- C5: `forward()` processes the layers in order; for each layer it
computes every neuron's pre-activation as
`bias + Σ(connection.weight * connection.signal.value)` — layer `0`
reading the external input signals, each later layer reading the
previous layer's freshly computed outputs — then applies the layer's
activation function once to the whole pre-activation vector and writes
the resulting vector into the neurons' output signals. -/
theorem forward_layer_semantics (ops : MathOps) (net : Network) (i : ℕ)
    (hi : i < net.layers.length) :
    (net.forward ops).layers.length = net.layers.length ∧
    ((net.forward ops).layers.getD i default).activationFunction =
      (net.layers.getD i default).activationFunction ∧
    (∀ j, j < (net.layers.getD i default).neurons.length →
      (((net.forward ops).layers.getD i default).neurons.getD j default).preActivation =
        ((net.layers.getD i default).neurons.getD j default).bias +
          (List.zipWith (fun w s => w * s)
            ((net.layers.getD i default).neurons.getD j default).weights
            (if i = 0 then net.inputSignals
             else ((net.forward ops).layers.getD (i - 1) default).outputValues)).sum) ∧
    ((net.forward ops).layers.getD i default).outputValues =
      (net.layers.getD i default).activationFunction.apply ops
        (((net.forward ops).layers.getD i default).neurons.map fun n =>
          n.preActivation) := by
  have hfl : (net.forward ops).layers =
      forwardLayers ops net.inputSignals net.layers := rfl
  have hget := forwardLayers_getD ops net.inputSignals net.layers i hi
  refine ⟨?_, ?_, ?_, ?_⟩
  · rw [hfl, forwardLayers_length]
  · rw [hfl, hget, forward_activationFunction]
  · intro j hj
    rw [hfl, hget, forward_neurons_getD ops _ _ j hj]
    rfl
  · rw [hfl, hget, forward_outputValues]

/-- Closed witness for `forward_layer_semantics` on `wNet1`, layer `0`. -/
theorem forward_layer_semantics_witness :
    0 < wNet1.layers.length ∧
    ((wNet1.forward oneOps).layers.length = wNet1.layers.length ∧
    ((wNet1.forward oneOps).layers.getD 0 default).activationFunction =
      (wNet1.layers.getD 0 default).activationFunction ∧
    (∀ j, j < (wNet1.layers.getD 0 default).neurons.length →
      (((wNet1.forward oneOps).layers.getD 0 default).neurons.getD j default).preActivation =
        ((wNet1.layers.getD 0 default).neurons.getD j default).bias +
          (List.zipWith (fun w s => w * s)
            ((wNet1.layers.getD 0 default).neurons.getD j default).weights
            (if 0 = 0 then wNet1.inputSignals
             else ((wNet1.forward oneOps).layers.getD (0 - 1) default).outputValues)).sum) ∧
    ((wNet1.forward oneOps).layers.getD 0 default).outputValues =
      (wNet1.layers.getD 0 default).activationFunction.apply oneOps
        (((wNet1.forward oneOps).layers.getD 0 default).neurons.map fun n =>
          n.preActivation)) :=
  ⟨by decide, forward_layer_semantics oneOps wNet1 0 (by decide)⟩

/-- C7: `setInputSignals` with a vector of the wrong length, and
`backward`/`calculateLoss` with a wrong-length expected vector, fail
with the shape-mismatch error — the guard fires before any state is
written, so the error carries no modified network — while matching
lengths never produce that error: `setInputSignals` succeeds updating
only the input signal values, `backward` succeeds, and `calculateLoss`
succeeds returning the loss without touching the network. -/
theorem shape_mismatch_guards (ops : MathOps) (net : Network)
    (values expected : List ℚ) (lr : ℚ) (h : net.layers ≠ []) :
    ((values.length ≠ net.inputSignals.length →
        net.setInputSignals values = .error .shapeMismatch) ∧
      (values.length = net.inputSignals.length →
        net.setInputSignals values = .ok { net with inputSignals := values })) ∧
    ((expected.length ≠ (net.layers.getLastD default).neurons.length →
        net.backward ops expected lr = .error .shapeMismatch) ∧
      (expected.length = (net.layers.getLastD default).neurons.length →
        ∃ net', net.backward ops expected lr = .ok net')) ∧
    ((expected.length ≠ (net.layers.getLastD default).neurons.length →
        net.calculateLoss ops expected = .error .shapeMismatch) ∧
      (expected.length = (net.layers.getLastD default).neurons.length →
        net.calculateLoss ops expected =
          .ok (net.lossFunction.apply ops
            (net.layers.getLastD default).outputValues expected))) := by
  refine ⟨⟨?_, ?_⟩, ⟨?_, ?_⟩, ⟨?_, ?_⟩⟩
  · intro hm
    unfold Network.setInputSignals
    rw [if_pos hm]
  · intro hm
    unfold Network.setInputSignals
    rw [if_neg (by omega)]
  · intro hm
    unfold Network.backward
    rw [getLast?_eq_getLastD net.layers h default]
    show (if expected.length ≠ (net.layers.getLastD default).neurons.length then
        Except.error NetworkError.shapeMismatch
      else _) = _
    rw [if_pos hm]
  · intro hm
    exact ⟨_, backward_eq_ok ops net expected lr h hm⟩
  · intro hm
    unfold Network.calculateLoss
    rw [getLast?_eq_getLastD net.layers h default]
    show (if expected.length ≠ (net.layers.getLastD default).neurons.length then
        Except.error NetworkError.shapeMismatch
      else _) = _
    rw [if_pos hm]
  · intro hm
    unfold Network.calculateLoss
    rw [getLast?_eq_getLastD net.layers h default]
    show (if expected.length ≠ (net.layers.getLastD default).neurons.length then
        Except.error NetworkError.shapeMismatch
      else _) = _
    rw [if_neg (by omega)]

/-- Closed witness for `shape_mismatch_guards` on `wNet2` with a
wrong-length input vector `[1, 2]` and expected vector `[5]`. -/
theorem shape_mismatch_guards_witness :
    wNet2.layers ≠ [] ∧
    ((([1, 2] : List ℚ).length ≠ wNet2.inputSignals.length →
        wNet2.setInputSignals [1, 2] = .error .shapeMismatch) ∧
      (([1, 2] : List ℚ).length = wNet2.inputSignals.length →
        wNet2.setInputSignals [1, 2] =
          .ok { wNet2 with inputSignals := [1, 2] })) ∧
    ((([5] : List ℚ).length ≠ (wNet2.layers.getLastD default).neurons.length →
        wNet2.backward oneOps [5] 1 = .error .shapeMismatch) ∧
      (([5] : List ℚ).length = (wNet2.layers.getLastD default).neurons.length →
        ∃ net', wNet2.backward oneOps [5] 1 = .ok net')) ∧
    ((([5] : List ℚ).length ≠ (wNet2.layers.getLastD default).neurons.length →
        wNet2.calculateLoss oneOps [5] = .error .shapeMismatch) ∧
      (([5] : List ℚ).length = (wNet2.layers.getLastD default).neurons.length →
        wNet2.calculateLoss oneOps [5] =
          .ok (wNet2.lossFunction.apply oneOps
            (wNet2.layers.getLastD default).outputValues [5]))) :=
  ⟨by decide, shape_mismatch_guards oneOps wNet2 [1, 2] [5] 1 (by decide)⟩

/-- C8: constructing a network without an explicit loss function selects
CrossEntropy when the last layer's activation is Softmax and MSE
otherwise, while an explicitly passed loss function is always used
regardless of the last layer's activation. -/
theorem constructor_loss_selection (configs : List LayerConfig)
    (init : InitSource) (h : configs ≠ []) :
    (Network.construct configs none init).map (fun n => n.lossFunction) =
      .ok (if (configs.getLastD default).activationFunction = .Softmax then
        .CrossEntropy else .MSE) ∧
    ∀ lf, (Network.construct configs (some lf) init).map
      (fun n => n.lossFunction) = .ok lf := by
  have hclne : constructLayers configs init ≠ [] := by
    have hcl := constructLayers_length configs init
    intro he
    rw [he] at hcl
    exact h (List.length_eq_zero.mp hcl.symm)
  constructor
  · rw [construct_eq_ok configs none init h]
    have hi : configs.length - 1 < configs.length :=
      Nat.sub_lt (List.length_pos.mpr h) Nat.one_pos
    have haf : ((constructLayers configs init).getLastD
        default).activationFunction =
        (configs.getLastD default).activationFunction := by
      rw [getLastD_eq_getD _ _ hclne, getLastD_eq_getD _ _ h,
        constructLayers_length]
      rw [constructLayers_getD configs init _ hi]
    show Except.ok (if ((constructLayers configs init).getLastD
        default).activationFunction = ActivationFunction.Softmax then
      LossFunction.CrossEntropy else LossFunction.MSE) = _
    rw [haf]
  · intro lf
    rw [construct_eq_ok configs (some lf) init h]
    rfl

/-- Closed witness for `constructor_loss_selection` on a two-layer
configuration ending in a Softmax layer. -/
theorem constructor_loss_selection_witness :
    ([⟨2, .ReLU⟩, ⟨3, .Softmax⟩] : List LayerConfig) ≠ [] ∧
    ((Network.construct [⟨2, .ReLU⟩, ⟨3, .Softmax⟩] none zeroInit).map
        (fun n => n.lossFunction) =
      .ok (if (([⟨2, .ReLU⟩, ⟨3, .Softmax⟩] :
          List LayerConfig).getLastD default).activationFunction = .Softmax then
        .CrossEntropy else .MSE) ∧
    ∀ lf, (Network.construct [⟨2, .ReLU⟩, ⟨3, .Softmax⟩] (some lf) zeroInit).map
      (fun n => n.lossFunction) = .ok lf) :=
  ⟨by decide,
    constructor_loss_selection [⟨2, .ReLU⟩, ⟨3, .Softmax⟩] zeroInit (by decide)⟩

/-- C6 (amended): for every *nonempty* finite input vector, and any
exponential returning strictly positive values (as the real `Math.exp`
does), `Softmax.apply` returns a vector of the same length whose entries
are all strictly greater than `0` and whose sum is exactly `1` — in
particular within the `1e-5` tolerance — for large-magnitude inputs as
well, since the subtracted per-vector maximum cancels in the
normalisation.  On the empty vector the sum is `0`, see the
counterexample. -/
theorem softmax_pos_sum_one (ops : MathOps) (hpos : ∀ x, 0 < ops.exp x)
    (values : List ℚ) (hne : values ≠ []) :
    (ActivationFunction.apply ops .Softmax values).length = values.length ∧
    (∀ v ∈ ActivationFunction.apply ops .Softmax values, 0 < v) ∧
    (ActivationFunction.apply ops .Softmax values).sum = 1 ∧
    |(ActivationFunction.apply ops .Softmax values).sum - 1| ≤ 1 / 100000 := by
  have hsm : ActivationFunction.apply ops .Softmax values =
      (values.map fun x => ops.exp (x - listMax values)).map
        (fun e => e /
          ((values.map fun x => ops.exp (x - listMax values)).foldl (· + ·) 0)) :=
    rfl
  have hfold : (values.map fun x => ops.exp (x - listMax values)).foldl (· + ·) 0 =
      (values.map fun x => ops.exp (x - listMax values)).sum := by
    rw [foldl_add_eq, zero_add]
  have hexpos : ∀ e ∈ values.map fun x => ops.exp (x - listMax values), 0 < e := by
    intro e he
    rw [List.mem_map] at he
    obtain ⟨x, _, hx⟩ := he
    rw [← hx]
    exact hpos _
  have hsumpos : 0 < (values.map fun x => ops.exp (x - listMax values)).sum := by
    apply List.sum_pos _ hexpos
    simpa using hne
  have hsum1 : (ActivationFunction.apply ops .Softmax values).sum = 1 := by
    rw [hsm, hfold, sum_map_div_eq]
    exact div_self (ne_of_gt hsumpos)
  refine ⟨?_, ?_, hsum1, ?_⟩
  · rw [hsm]
    simp
  · intro v hv
    rw [hsm] at hv
    rw [List.mem_map] at hv
    obtain ⟨e, he, hev⟩ := hv
    rw [← hev, hfold]
    exact div_pos (hexpos e he) hsumpos
  · rw [hsum1]
    norm_num

/-- The claim quantified over *every* finite vector fails at the empty
vector: `Softmax.apply` maps `[]` to `[]`, whose sum is `0`, not `1`
within any tolerance (in the source, `Math.max()` is `-Infinity` and
both `map`s run over no elements). -/
theorem softmax_empty_counterexample :
    ActivationFunction.apply oneOps .Softmax [] = [] ∧
    (ActivationFunction.apply oneOps .Softmax []).sum = 0 ∧
    ¬ |(ActivationFunction.apply oneOps .Softmax []).sum - 1| ≤ 1 / 100000 := by
  refine ⟨rfl, rfl, ?_⟩
  rw [show (ActivationFunction.apply oneOps .Softmax ([] : List ℚ)).sum = 0
    from rfl]
  rw [zero_sub, abs_neg, abs_one]
  norm_num

/-- Closed witness for `softmax_pos_sum_one` at the large-magnitude
input `[100, 101, 102]` with a concrete positive exponential. -/
theorem softmax_pos_sum_one_witness :
    (∀ x : ℚ, 0 < oneOps.exp x) ∧
    (([100, 101, 102] : List ℚ) ≠ []) ∧
    ((ActivationFunction.apply oneOps .Softmax [100, 101, 102]).length =
        ([100, 101, 102] : List ℚ).length ∧
      (∀ v ∈ ActivationFunction.apply oneOps .Softmax [100, 101, 102], 0 < v) ∧
      (ActivationFunction.apply oneOps .Softmax [100, 101, 102]).sum = 1 ∧
      |(ActivationFunction.apply oneOps .Softmax [100, 101, 102]).sum - 1| ≤
        1 / 100000) :=
  ⟨fun _ => by norm_num [oneOps], by decide,
    softmax_pos_sum_one oneOps (fun _ => by norm_num [oneOps])
      [100, 101, 102] (by decide)⟩

/-- C10 (implicit): the integer encoding in `toJSON` rounds ties toward
`+∞` (JavaScript `Math.round`), not away from zero: whenever the scaled
value has fractional part exactly `1/2` the stored integer is the next
integer up; in particular a bias of `-0.0000005` at precision `6` is
stored as `0` and restores to `0`, while a weight of `0.0000005` is
stored as `1` and restores to `0.000001`. -/
theorem jsRound_ties_up :
    (∀ x : ℚ, x - ⌊x⌋ = 1/2 → jsRound x = ⌊x⌋ + 1) ∧
    jsRound ((10 : ℚ) ^ 6 * (-5 / 10 ^ 7)) = 0 ∧
    ((jsRound ((10 : ℚ) ^ 6 * (-5 / 10 ^ 7)) : ℚ) / 10 ^ 6 = 0) ∧
    jsRound ((10 : ℚ) ^ 6 * (5 / 10 ^ 7)) = 1 ∧
    ((jsRound ((10 : ℚ) ^ 6 * (5 / 10 ^ 7)) : ℚ) / 10 ^ 6 = 1 / 10 ^ 6) ∧
    Network.toJSON
      { layers := [{ neurons := [{ weights := [5 / 10 ^ 7], bias := -5 / 10 ^ 7,
                                   preActivation := 0, output := 0 }]
                     activationFunction := .ReLU }]
        inputSignals := [0]
        lossFunction := .MSE } 6 =
      { layers := [{ neurons := [{ bias := 0, weights := [1] }]
                     activationFunction := .ReLU }]
        lossFunction := .MSE } := by
  have hb : jsRound ((10 : ℚ) ^ 6 * (-5 / 10 ^ 7)) = 0 := by
    rw [show (10 : ℚ) ^ 6 * (-5 / 10 ^ 7) = -(1/2) by norm_num, jsRound]
    rw [show (-(1/2) + 1/2 : ℚ) = 0 by norm_num]
    exact Int.floor_zero
  have hw : jsRound ((10 : ℚ) ^ 6 * (5 / 10 ^ 7)) = 1 := by
    rw [show (10 : ℚ) ^ 6 * (5 / 10 ^ 7) = 1/2 by norm_num, jsRound]
    rw [show ((1/2 : ℚ) + 1/2) = 1 by norm_num]
    exact Int.floor_one
  refine ⟨?_, hb, by rw [hb]; norm_num, hw, by rw [hw]; norm_num, ?_⟩
  · intro x hx
    have hx2 : x + 1/2 = ((⌊x⌋ + 1 : ℤ) : ℚ) := by
      push_cast
      linarith
    rw [jsRound, hx2, Int.floor_intCast]
  · simp [Network.toJSON, hb, hw]

/-- Closed witness for the tie-rounding rule of `jsRound_ties_up` at
`x = 3/2`. -/
theorem jsRound_ties_up_witness :
    ((3/2 : ℚ) - ⌊(3/2 : ℚ)⌋ = 1/2) ∧ jsRound (3/2 : ℚ) = ⌊(3/2 : ℚ)⌋ + 1 :=
  ⟨by norm_num, jsRound_ties_up.1 (3/2) (by norm_num)⟩

/-- C4: for every connected network and every precision `p`,
`fromJSON (toJSON net p) p` succeeds and yields a network with the same
layer count, the same per-layer activation-function name and neuron
count, the same loss-function name, and, for every neuron, a bias and
connection weights equal to the original values rounded to `p` decimal
digits — stored as `Math.round(10 ^ p * value)` and restored by dividing
by `10 ^ p`.  The construction-time random draws (`init`) are fully
overwritten. -/
theorem toJSON_fromJSON_roundTrip (net : Network) (h : net.wellConnected)
    (p : ℕ) (init : InitSource) :
    ∃ net', Network.fromJSON (net.toJSON p) p init = .ok net' ∧
      net'.lossFunction = net.lossFunction ∧
      net'.layers.length = net.layers.length ∧
      ∀ i, i < net.layers.length →
        ((net'.layers.getD i default).activationFunction =
            (net.layers.getD i default).activationFunction ∧
          (net'.layers.getD i default).neurons.length =
            (net.layers.getD i default).neurons.length ∧
          ∀ j, j < (net.layers.getD i default).neurons.length →
            (net'.layers.getD i default).neurons.getD j default =
              { weights := ((net.layers.getD i default).neurons.getD j
                    default).weights.map fun w =>
                  (jsRound (10 ^ p * w) : ℚ) / 10 ^ p
                bias := (jsRound (10 ^ p *
                    ((net.layers.getD i default).neurons.getD j
                      default).bias) : ℚ) / 10 ^ p
                preActivation := 0
                output := 0 }) := by
  obtain ⟨hne, hinput, hwc⟩ := h
  have hjl : (net.toJSON p).layers = net.layers.map (fun L =>
      ({ neurons := L.neurons.map fun n =>
           ({ bias := jsRound (10 ^ p * n.bias)
              weights := n.weights.map fun w =>
                jsRound (10 ^ p * w) } : NeuronJSON)
         activationFunction := L.activationFunction } : LayerJSON)) := rfl
  have hjloss : (net.toJSON p).lossFunction = net.lossFunction := rfl
  have hconfigs : ((net.toJSON p).layers.map fun l =>
      ({ neurons := l.neurons.length
         activationFunction := l.activationFunction } : LayerConfig)) =
      net.layers.map fun L =>
        ({ neurons := L.neurons.length
           activationFunction := L.activationFunction } : LayerConfig) := by
    rw [hjl, List.map_map]
    refine congrArg (fun f => List.map f net.layers) (funext fun L => ?_)
    show ({ neurons := (L.neurons.map _).length
            activationFunction := L.activationFunction } : LayerConfig) = _
    rw [List.length_map]
  have hcfgne : (net.layers.map fun L =>
      ({ neurons := L.neurons.length
         activationFunction := L.activationFunction } : LayerConfig)) ≠ [] := by
    simpa using hne
  have hfrom : Network.fromJSON (net.toJSON p) p init = .ok
      { layers := List.zipWith
          (fun (L : Layer) (jl : LayerJSON) =>
            { L with
              neurons := List.zipWith
                (fun (n : Neuron) (jn : NeuronJSON) =>
                  { n with
                    bias := (jn.bias : ℚ) / 10 ^ p
                    weights := (List.range n.weights.length).map fun ii =>
                      ((jn.weights.getD ii 0 : ℤ) : ℚ) / 10 ^ p })
                L.neurons jl.neurons })
          (constructLayers
            (net.layers.map fun L =>
              ({ neurons := L.neurons.length
                 activationFunction := L.activationFunction } : LayerConfig))
            init)
          (net.toJSON p).layers
        inputSignals := List.replicate
          (((net.layers.map fun L =>
              ({ neurons := L.neurons.length
                 activationFunction := L.activationFunction } :
                LayerConfig)).headD default)).neurons 0
        lossFunction := (net.toJSON p).lossFunction } := by
    unfold Network.fromJSON
    rw [hconfigs, construct_eq_ok _ _ init hcfgne]
  refine ⟨_, hfrom, hjloss, ?_, ?_⟩
  · show (List.zipWith _ (constructLayers _ init) (net.toJSON p).layers).length =
      net.layers.length
    rw [List.length_zipWith, constructLayers_length, hjl]
    simp
  · intro i hi
    have hicfg : i < (net.layers.map fun L =>
        ({ neurons := L.neurons.length
           activationFunction := L.activationFunction } : LayerConfig)).length := by
      simpa using hi
    have hjlen : i < (net.toJSON p).layers.length := by
      rw [hjl]
      simpa using hi
    have hclen : i < (constructLayers
        (net.layers.map fun L =>
          ({ neurons := L.neurons.length
             activationFunction := L.activationFunction } : LayerConfig))
        init).length := by
      rw [constructLayers_length]
      exact hicfg
    have hcfgi : (net.layers.map fun L =>
        ({ neurons := L.neurons.length
           activationFunction := L.activationFunction } : LayerConfig)).getD i
          default =
        ({ neurons := (net.layers.getD i default).neurons.length
           activationFunction :=
             (net.layers.getD i default).activationFunction } : LayerConfig) :=
      getD_map _ net.layers i hi default default
    have hjsoni : (net.toJSON p).layers.getD i default =
        ({ neurons := (net.layers.getD i default).neurons.map fun n =>
             ({ bias := jsRound (10 ^ p * n.bias)
                weights := n.weights.map fun w =>
                  jsRound (10 ^ p * w) } : NeuronJSON)
           activationFunction :=
             (net.layers.getD i default).activationFunction } : LayerJSON) := by
      rw [hjl]
      exact getD_map _ net.layers i hi default default
    have hbasei := constructLayers_getD
      (net.layers.map fun L =>
        ({ neurons := L.neurons.length
           activationFunction := L.activationFunction } : LayerConfig))
      init i hicfg
    rw [hcfgi] at hbasei
    have hzi : (List.zipWith
        (fun (L : Layer) (jl : LayerJSON) =>
          { L with
            neurons := List.zipWith
              (fun (n : Neuron) (jn : NeuronJSON) =>
                { n with
                  bias := (jn.bias : ℚ) / 10 ^ p
                  weights := (List.range n.weights.length).map fun ii =>
                    ((jn.weights.getD ii 0 : ℤ) : ℚ) / 10 ^ p })
              L.neurons jl.neurons })
        (constructLayers
          (net.layers.map fun L =>
            ({ neurons := L.neurons.length
               activationFunction := L.activationFunction } : LayerConfig))
          init)
        (net.toJSON p).layers).getD i default =
        { (constructLayers
            (net.layers.map fun L =>
              ({ neurons := L.neurons.length
                 activationFunction := L.activationFunction } : LayerConfig))
            init).getD i default with
          neurons := List.zipWith
            (fun (n : Neuron) (jn : NeuronJSON) =>
              { n with
                bias := (jn.bias : ℚ) / 10 ^ p
                weights := (List.range n.weights.length).map fun ii =>
                  ((jn.weights.getD ii 0 : ℤ) : ℚ) / 10 ^ p })
            ((constructLayers
              (net.layers.map fun L =>
                ({ neurons := L.neurons.length
                   activationFunction := L.activationFunction } : LayerConfig))
              init).getD i default).neurons
            (((net.toJSON p).layers.getD i default)).neurons } :=
      getD_zipWith _ _ _ i hclen hjlen default default default
    rw [hbasei, hjsoni] at hzi
    refine ⟨?_, ?_, ?_⟩
    · rw [hzi]
    · rw [hzi]
      simp [List.length_zipWith]
    · intro j hj
      rw [hzi]
      have hrj : j < ((List.range (net.layers.getD i default).neurons.length).map
          fun jj => mkNeuron
            (if i = 0 then
              (((net.layers.map fun L =>
                ({ neurons := L.neurons.length
                   activationFunction := L.activationFunction } :
                  LayerConfig)).headD default)).neurons
             else
              (((net.layers.map fun L =>
                ({ neurons := L.neurons.length
                   activationFunction := L.activationFunction } :
                  LayerConfig)).getD (i - 1) default)).neurons)
            (init.bias i jj) (init.weight i jj)).length := by
        simpa using hj
      have hmj : j < ((net.layers.getD i default).neurons.map fun n =>
          ({ bias := jsRound (10 ^ p * n.bias)
             weights := n.weights.map fun w =>
               jsRound (10 ^ p * w) } : NeuronJSON)).length := by
        simpa using hj
      rw [getD_zipWith _ _ _ j hrj hmj default default default]
      rw [getD_range_map _ _ j hj default]
      rw [getD_map _ _ j hj default default]
      have hfanj : (if i = 0 then
          (((net.layers.map fun L =>
            ({ neurons := L.neurons.length
               activationFunction := L.activationFunction } :
              LayerConfig)).headD default)).neurons
         else
          (((net.layers.map fun L =>
            ({ neurons := L.neurons.length
               activationFunction := L.activationFunction } :
              LayerConfig)).getD (i - 1) default)).neurons) =
          ((net.layers.getD i default).neurons.getD j default).weights.length := by
        rw [hwc i hi j hj]
        cases i with
        | zero =>
            rw [if_pos rfl, if_pos rfl]
            rw [headD_map_ne _ net.layers hne default default, hinput]
        | succ k =>
            rw [if_neg (Nat.succ_ne_zero k), if_neg (Nat.succ_ne_zero k)]
            have hk : k + 1 - 1 = k := rfl
            rw [hk]
            rw [getD_map _ net.layers k (by omega) default default]
      have hwts : (List.range ((mkNeuron
          (((net.layers.getD i default).neurons.getD j default).weights.length)
          (init.bias i j) (init.weight i j)).weights.length)).map
            (fun ii => (((((net.layers.getD i default).neurons.getD j
                default).weights.map fun w =>
              jsRound (10 ^ p * w)).getD ii 0 : ℤ) : ℚ) / 10 ^ p) =
          ((net.layers.getD i default).neurons.getD j default).weights.map
            fun w => (jsRound (10 ^ p * w) : ℚ) / 10 ^ p := by
        have hmklen : (mkNeuron
            (((net.layers.getD i default).neurons.getD j
              default).weights.length)
            (init.bias i j) (init.weight i j)).weights.length =
            ((net.layers.getD i default).neurons.getD j
              default).weights.length := by
          simp [mkNeuron]
        rw [hmklen]
        apply List.ext_getElem
        · simp
        · intro ii h1 h2
          have hiw : ii < ((net.layers.getD i default).neurons.getD j
              default).weights.length := by
            simpa using h1
          rw [List.getElem_map, List.getElem_map, List.getElem_range]
          rw [getD_map _ _ ii hiw 0 0]
          rw [List.getD_eq_getElem _ _ hiw]
      rw [hfanj]
      show ({ mkNeuron
          (((net.layers.getD i default).neurons.getD j default).weights.length)
          (init.bias i j) (init.weight i j) with
        bias := ((jsRound (10 ^ p *
          ((net.layers.getD i default).neurons.getD j default).bias) : ℤ) : ℚ) /
            10 ^ p
        weights := (List.range ((mkNeuron
            (((net.layers.getD i default).neurons.getD j
              default).weights.length)
            (init.bias i j) (init.weight i j)).weights.length)).map
          fun ii => (((((net.layers.getD i default).neurons.getD j
              default).weights.map fun w =>
            jsRound (10 ^ p * w)).getD ii 0 : ℤ) : ℚ) / 10 ^ p } : Neuron) = _
      rw [hwts]
      rfl

/-- Closed witness for `toJSON_fromJSON_roundTrip` on `wNet1` at
precision `6`. -/
theorem toJSON_fromJSON_roundTrip_witness :
    wNet1.wellConnected ∧
    (∃ net', Network.fromJSON (wNet1.toJSON 6) 6 zeroInit = .ok net' ∧
      net'.lossFunction = wNet1.lossFunction ∧
      net'.layers.length = wNet1.layers.length ∧
      ∀ i, i < wNet1.layers.length →
        ((net'.layers.getD i default).activationFunction =
            (wNet1.layers.getD i default).activationFunction ∧
          (net'.layers.getD i default).neurons.length =
            (wNet1.layers.getD i default).neurons.length ∧
          ∀ j, j < (wNet1.layers.getD i default).neurons.length →
            (net'.layers.getD i default).neurons.getD j default =
              { weights := ((wNet1.layers.getD i default).neurons.getD j
                    default).weights.map fun w =>
                  (jsRound (10 ^ 6 * w) : ℚ) / 10 ^ 6
                bias := (jsRound (10 ^ 6 *
                    ((wNet1.layers.getD i default).neurons.getD j
                      default).bias) : ℚ) / 10 ^ 6
                preActivation := 0
                output := 0 })) :=
  ⟨by decide, toJSON_fromJSON_roundTrip wNet1 (by decide) 6 zeroInit⟩

end Neuro
